import Mathlib

/-!
Verification development for a client-side stock-management application
(Storage module backed by localStorage or a remote gist, plus the
barcode-resolution flow `handleBarcodeDetected` in the app modules).

The JavaScript source is shallowly embedded:
* an inventory item is a record of the persisted fields; the numeric
  fields `costPrice`, `sellingPrice`, `quantity` are `Option`-typed so
  that the JavaScript value `NaN` (producible by `parseInt`/`parseFloat`
  on unparsable input) is representable as `none`;
* timestamps (`createdAt`, `updatedAt`) are the ISO-8601 strings the code
  stores; ISO strings of a common format compare chronologically under
  lexicographic order, modelled by `strLt`;
* each mutating Storage operation returns its result together with
  `Option (List InventoryItem)`: `some l` means `saveAllItems l` was
  invoked (the collection persisted becomes `l`), `none` means the
  operation returned without writing;
* `JSON.parse` / `JSON.stringify` are modelled at the level of JSON
  values (`Json` trees): an import payload is `Option Json`, where
  `none` stands for a string on which `JSON.parse` throws;
* `parseInt` and `parseFloat` are modelled on their decimal fragment
  (optional whitespace, optional sign, digits, and for `parseFloat` an
  optional fractional part), which covers every value the application
  feeds them.
-/

/-- JavaScript whitespace test, restricted to the ASCII whitespace
characters (space, tab, line feed, vertical tab, form feed, carriage
return). -/
def jsIsWs (c : Char) : Bool :=
  c.toNat == 32 || c.toNat == 9 || c.toNat == 10 || c.toNat == 11 ||
  c.toNat == 12 || c.toNat == 13

/-- Drop leading JavaScript whitespace from a character list. -/
def dropWs : List Char → List Char
  | [] => []
  | c :: cs => if jsIsWs c then dropWs cs else c :: cs

/-- Drop trailing JavaScript whitespace (via reversal). -/
def trimChars (cs : List Char) : List Char :=
  ((dropWs ((dropWs cs).reverse)).reverse)

/-- Model of JavaScript `String.prototype.trim()`. -/
def jsTrim (s : String) : String := ⟨trimChars s.data⟩

/-- Decimal digit test (`0`–`9` by code point). -/
def isDig (c : Char) : Bool := 48 ≤ c.toNat && c.toNat ≤ 57

/-- ASCII lower-casing of one character, the fragment of
`String.prototype.toLowerCase()` the embedding needs. -/
def lowerChar (c : Char) : Char :=
  if 65 ≤ c.toNat && c.toNat ≤ 90 then Char.ofNat (c.toNat + 32) else c

/-- Model of JavaScript `String.prototype.toLowerCase()` (ASCII fragment). -/
def jsLower (s : String) : String := ⟨s.data.map lowerChar⟩

/-- `hasPfx needle hay` is true when `needle` occurs at the start of `hay`. -/
def hasPfx : List Char → List Char → Bool
  | [], _ => true
  | _ :: _, [] => false
  | a :: as, b :: bs => a == b && hasPfx as bs

/-- `inclChars needle hay` is true when `needle` occurs contiguously
somewhere inside `hay`; this models `String.prototype.includes`. -/
def inclChars (needle : List Char) : List Char → Bool
  | [] => hasPfx needle []
  | b :: bs => hasPfx needle (b :: bs) || inclChars needle bs

/-- Model of JavaScript `hay.includes(needle)`. -/
def jsIncludes (hay needle : String) : Bool := inclChars needle.data hay.data

/-- Lexicographic strict order on character lists by code point; ISO-8601
timestamps of a common format compare chronologically under it. -/
def ltChars : List Char → List Char → Bool
  | [], [] => false
  | [], _ :: _ => true
  | _ :: _, [] => false
  | a :: as, b :: bs => a.toNat < b.toNat || (a == b && ltChars as bs)

/-- Lexicographic strict order on strings (timestamp comparison). -/
def strLt (a b : String) : Bool := ltChars a.data b.data

/-- Numeric value of a list of decimal digit characters (most significant
first); the accumulator folds exactly like a left-to-right scan. -/
def digitsVal : List Char → Nat
  | [] => 0
  | c :: cs => digitsValAux (c.toNat - 48) cs
where
  digitsValAux (acc : Nat) : List Char → Nat
    | [] => acc
    | c :: cs => digitsValAux (acc * 10 + (c.toNat - 48)) cs

/-- Model of JavaScript `parseInt(s)` on its decimal fragment, over the
character list of the argument: skip leading whitespace, read an
optional sign, then the longest run of decimal digits; `none` models
the result `NaN` (no digits found). -/
def jsParseIntCore (cs0 : List Char) : Option Int :=
  let cs := dropWs cs0
  let sgn : Int := if cs.head? == some '-' then -1 else 1
  let rest := if cs.head? == some '-' || cs.head? == some '+' then cs.tail else cs
  let ds := rest.takeWhile isDig
  if ds.isEmpty then none else some (sgn * (digitsVal ds : Int))

/-- Model of JavaScript `parseInt(s)` (decimal fragment). -/
def jsParseInt (s : String) : Option Int := jsParseIntCore s.data

/-- `parseInt(s) || 0`: the`NaN`-or-zero result collapses to `0`. -/
def jsParseIntOr0 (s : String) : Int := (jsParseInt s).getD 0

/-- Powers of ten, for the value of a decimal fraction. -/
def pow10 : Nat → Nat
  | 0 => 1
  | n + 1 => 10 * pow10 n

/-- Model of JavaScript `parseFloat(s)` on its decimal fragment: skip
leading whitespace, read an optional sign, integer digits, and an
optional `.`-separated fractional part; `none` models `NaN`. The value
of `sign intpart.fracpart` with `k` fractional digits is the rational
`sign * (intpart * 10^k + fracpart) / 10^k`. -/
def jsParseFloat (s : String) : Option Rat :=
  let cs := dropWs s.data
  let sgn : Int := if cs.head? == some '-' then -1 else 1
  let rest := if cs.head? == some '-' || cs.head? == some '+' then cs.tail else cs
  let ds := rest.takeWhile isDig
  let after := rest.drop ds.length
  let fs :=
    match after with
    | '.' :: t => t.takeWhile isDig
    | _ => []
  if ds.isEmpty && fs.isEmpty then none
  else
    some (mkRat (sgn * (digitsVal ds * pow10 fs.length + digitsVal fs : Nat))
      (pow10 fs.length))

/-- `parseFloat(s) || 0`. -/
def jsParseFloatOr0 (s : String) : Rat := (jsParseFloat s).getD 0

/-- An inventory item as persisted by the Storage module (see the data
structure comment at the head of the storage source file). `none` in a
numeric field models the JavaScript value `NaN`. -/
structure InventoryItem where
  id : String
  barcode : Option String
  stockNumber : String
  supplier : String
  description : String
  costPrice : Option Rat
  sellingPrice : Option Rat
  quantity : Option Int
  createdAt : String
  updatedAt : String
deriving Repr, DecidableEq

/-- Model of JavaScript `Array.prototype.find` (`|| null` folds into
`Option`): the first element satisfying the predicate. -/
def jsFind (p : α → Bool) : List α → Option α
  | [] => none
  | a :: as => if p a then some a else jsFind p as

/-- Model of JavaScript `Array.prototype.findIndex` (with the `-1`
failure result folded into `Option`). -/
def findIndex (p : α → Bool) : List α → Option Nat
  | [] => none
  | a :: as => if p a then some 0 else (findIndex p as).map (· + 1)

/-- `getItemById` from the storage modules:
`items.find(item => item.id === id) || null`. -/
def getItemById (id : String) (items : List InventoryItem) : Option InventoryItem :=
  jsFind (fun item => item.id == id) items

/-- `getItemByBarcode` from the storage modules:
`items.find(item => item.barcode === barcode) || null`; a stored `null`
barcode is never strictly equal to the string argument. -/
def getItemByBarcode (barcode : String) (items : List InventoryItem) : Option InventoryItem :=
  jsFind (fun item => item.barcode == some barcode) items

/-- The per-item test inside `searchItems`: `searchTerm` is already
lower-cased and trimmed by the caller. -/
def itemMatches (searchTerm : String) (item : InventoryItem) : Bool :=
  jsIncludes (jsLower item.description) searchTerm ||
  jsIncludes (jsLower item.stockNumber) searchTerm ||
  jsIncludes (jsLower item.supplier) searchTerm ||
  (match item.barcode with
   | some b => jsIncludes (jsLower b) searchTerm
   | none => false)

/-- `searchItems` from the storage modules: empty or whitespace-only
query yields `[]`; otherwise filter by case-insensitive substring match
of the lower-cased, trimmed query against description, stock number,
supplier, and (when non-null) barcode. -/
def searchItems (query : String) (items : List InventoryItem) : List InventoryItem :=
  if query == "" || jsTrim query == "" then []
  else
    let searchTerm := jsTrim (jsLower query)
    items.filter (itemMatches searchTerm)

/-- The item form payload produced by `UI.getFormData` and passed to
`addItem`: `barcode` is `value.trim() || null`; the text fields are the
trimmed input strings; the numeric fields are the raw input strings. -/
structure ItemForm where
  barcode : Option String
  stockNumber : String
  supplier : String
  description : String
  costPrice : String
  sellingPrice : String
  quantity : String
deriving Repr, DecidableEq

/-- `itemData.barcode || null`: an empty or absent payload barcode is
stored as `null`. -/
def jsOrNull : Option String → Option String
  | some s => if s == "" then none else some s
  | none => none

/-- `addItem` from the storage modules. `generateId()` and
`new Date().toISOString()` are nondeterministic at the JavaScript level
and enter the model as the parameters `newId` and `now`. Returns the
created item and the collection passed to `saveAllItems`. -/
def addItem (itemData : ItemForm) (newId now : String)
    (items : List InventoryItem) : InventoryItem × List InventoryItem :=
  let newItem : InventoryItem :=
    { id := newId
      barcode := jsOrNull itemData.barcode
      stockNumber := itemData.stockNumber
      supplier := itemData.supplier
      description := itemData.description
      costPrice := some (jsParseFloatOr0 itemData.costPrice)
      sellingPrice := some (jsParseFloatOr0 itemData.sellingPrice)
      quantity := some (jsParseIntOr0 itemData.quantity)
      createdAt := now
      updatedAt := now }
  (newItem, items ++ [newItem])

/-- The update payload accepted by `updateItem`: each field may be
absent (`undefined`, modelled `none`) or present as a string. -/
structure UpdatePayload where
  id : String
  barcode : Option String
  stockNumber : Option String
  supplier : Option String
  description : Option String
  costPrice : Option String
  sellingPrice : Option String
  quantity : Option String
deriving Repr, DecidableEq

/-- `payload || old` for a string field of the record: an absent or
empty payload string is falsy, so the old value is kept. -/
def overlayStr (payload : Option String) (old : String) : String :=
  match payload with
  | some s => if s == "" then old else s
  | none => old

/-- `payload || old` for the nullable `barcode` field. -/
def overlayBarcode (payload : Option String) (old : Option String) : Option String :=
  match payload with
  | some s => if s == "" then old else some s
  | none => old

/-- The record built by `updateItem` for the matched index: spread of
the old item with the overlay fields, `updatedAt` refreshed. -/
def applyUpdate (itemData : UpdatePayload) (now : String) (old : InventoryItem) : InventoryItem :=
  { old with
    barcode := overlayBarcode itemData.barcode old.barcode
    stockNumber := overlayStr itemData.stockNumber old.stockNumber
    supplier := overlayStr itemData.supplier old.supplier
    description := overlayStr itemData.description old.description
    costPrice :=
      match itemData.costPrice with
      | some s => jsParseFloat s
      | none => old.costPrice
    sellingPrice :=
      match itemData.sellingPrice with
      | some s => jsParseFloat s
      | none => old.sellingPrice
    quantity :=
      match itemData.quantity with
      | some s => jsParseInt s
      | none => old.quantity
    updatedAt := now }

/-- `updateItem` from the storage modules: `findIndex` on the id, `null`
when absent, otherwise overlay per `applyUpdate`, persist, and return
the updated record. The second component is the argument of the
`saveAllItems` call, `none` when no write happens. -/
def updateItem (itemData : UpdatePayload) (now : String)
    (items : List InventoryItem) : Option InventoryItem × Option (List InventoryItem) :=
  match findIndex (fun item => item.id == itemData.id) items with
  | none => (none, none)
  | some index =>
    match items[index]? with
    | none => (none, none)
    | some old =>
      let upd := applyUpdate itemData now old
      (some upd, some (items.set index upd))

/-- The result object of `removeStock`; `insufficientStock` carries
`item.quantity` as interpolated into the error message. -/
inductive RemoveResult where
  | notFound
  | invalidQuantity
  | insufficientStock (available : Option Int)
  | success (removed : Int) (item : InventoryItem)
deriving Repr, DecidableEq

/-- JavaScript `a < b` for a possibly-`NaN` left operand: any comparison
with `NaN` is false. -/
def jltInt (a : Option Int) (b : Int) : Bool :=
  match a with
  | some a => a < b
  | none => false

/-- JavaScript subtraction with a possibly-`NaN` left operand. -/
def jsubInt (a : Option Int) (b : Int) : Option Int :=
  match a with
  | some a => some (a - b)
  | none => none

/-- `removeStock` from the storage modules (the localStorage and gist
variants are line-for-line the same logic; the gist variant only forces
a cache refresh first). `now` models `new Date().toISOString()`. The
second component is the argument of the `saveAllItems` call, `none`
when the function returns before writing. -/
def removeStock (id : String) (quantity : String) (now : String)
    (items : List InventoryItem) : RemoveResult × Option (List InventoryItem) :=
  match findIndex (fun item => item.id == id) items with
  | none => (.notFound, none)
  | some index =>
    match items[index]? with
    | none => (.notFound, none)
    | some item =>
      let removeQty := jsParseIntOr0 quantity
      if removeQty ≤ 0 then (.invalidQuantity, none)
      else if jltInt item.quantity removeQty then (.insufficientStock item.quantity, none)
      else
        let upd := { item with quantity := jsubInt item.quantity removeQty, updatedAt := now }
        (.success removeQty upd, some (items.set index upd))

/-- `deleteItem` from the storage modules: filter out the id; when the
length is unchanged nothing is written and `false` is returned. -/
def deleteItem (id : String) (items : List InventoryItem) :
    Bool × Option (List InventoryItem) :=
  let filteredItems := items.filter (fun item => !(item.id == id))
  if filteredItems.length == items.length then (false, none)
  else (true, some filteredItems)

/-- The four routing outcomes of `handleBarcodeDetected` (both app
variants): show detail on an exact barcode match, show detail on a
single search hit, list multiple search hits, or fall through to the
add-item prompt. -/
inductive ResolveOutcome where
  | exactMatch (item : InventoryItem)
  | singleMatch (item : InventoryItem)
  | multipleMatches (items : List InventoryItem)
  | noMatch
deriving Repr, DecidableEq

/-- The lookup routing of `handleBarcodeDetected`: try
`getItemByBarcode` first; only when it yields `null` run `searchItems`
and dispatch on the number of hits (`=== 1`, `> 1`, else none). -/
def resolveCode (code : String) (items : List InventoryItem) : ResolveOutcome :=
  match getItemByBarcode code items with
  | some item => .exactMatch item
  | none =>
    match searchItems code items with
    | [] => .noMatch
    | [i] => .singleMatch i
    | results => .multipleMatches results

/-- A JSON value; the embedding works at the level of parsed JSON trees,
with `JSON.stringify`/`JSON.parse` of a tree treated as the identity on
trees (a property of the JSON text format, not of this program). -/
inductive Json where
  | null
  | bool (b : Bool)
  | num (q : Rat)
  | str (s : String)
  | arr (elems : List Json)
  | obj (fields : List (String × Json))
deriving Repr

/-- The JSON value `JSON.stringify` produces for one inventory item:
the ten schema fields in declaration order; a `null` barcode stays
`null`, and a `NaN` numeric field serializes as `null`. -/
def itemToJson (item : InventoryItem) : Json :=
  .obj
    [ ("id", .str item.id)
    , ("barcode", match item.barcode with | some b => .str b | none => .null)
    , ("stockNumber", .str item.stockNumber)
    , ("supplier", .str item.supplier)
    , ("description", .str item.description)
    , ("costPrice", match item.costPrice with | some q => .num q | none => .null)
    , ("sellingPrice", match item.sellingPrice with | some q => .num q | none => .null)
    , ("quantity", match item.quantity with | some n => .num (n : Rat) | none => .null)
    , ("createdAt", .str item.createdAt)
    , ("updatedAt", .str item.updatedAt) ]

/-- Field decoders for the item schema, inverses of the corresponding
serializations in `itemToJson`. -/
def strOfJson : Json → Option String
  | .str s => some s
  | _ => none

/-- Decode the nullable barcode field. -/
def barcodeOfJson : Json → Option (Option String)
  | .null => some none
  | .str s => some (some s)
  | _ => none

/-- Decode a price field (a rational number). -/
def ratOfJson : Json → Option Rat
  | .num q => some q
  | _ => none

/-- Decode the quantity field (an integral number). -/
def intOfJson : Json → Option Int
  | .num q => if q.den = 1 then some q.num else none
  | _ => none

/-- Decoder for one item record, inverse of `itemToJson` on
schema-conforming values: a record object with exactly the ten schema
fields in order, string-typed text fields, `null`-or-string barcode,
rational prices and an integral quantity. Values outside the schema are
not representable in the typed store of the model and decode to
`none`. -/
def itemOfJson : Json → Option InventoryItem
  | .obj [(kid, jid), (kbc, jbc), (ksn, jsn), (ksup, jsup), (kd, jd),
          (kcp, jcp), (ksp, jsp), (kq, jq), (kca, jca), (kua, jua)] =>
    if kid = "id" ∧ kbc = "barcode" ∧ ksn = "stockNumber" ∧ ksup = "supplier" ∧
       kd = "description" ∧ kcp = "costPrice" ∧ ksp = "sellingPrice" ∧
       kq = "quantity" ∧ kca = "createdAt" ∧ kua = "updatedAt" then
      (strOfJson jid).bind fun id =>
      (barcodeOfJson jbc).bind fun barcode =>
      (strOfJson jsn).bind fun stockNumber =>
      (strOfJson jsup).bind fun supplier =>
      (strOfJson jd).bind fun description =>
      (ratOfJson jcp).bind fun costPrice =>
      (ratOfJson jsp).bind fun sellingPrice =>
      (intOfJson jq).bind fun quantity =>
      (strOfJson jca).bind fun createdAt =>
      (strOfJson jua).bind fun updatedAt =>
      some { id, barcode, stockNumber, supplier, description
             costPrice := some costPrice, sellingPrice := some sellingPrice
             quantity := some quantity, createdAt, updatedAt }
    else none
  | _ => none

/-- `exportData` from the storage modules:
`JSON.stringify(items, null, 2)`, modelled as the JSON tree of the
collection (an array of the item records). -/
def exportData (items : List InventoryItem) : Json :=
  .arr (items.map itemToJson)

/-- `importData` from the storage modules. The payload is the result of
`JSON.parse` on the argument string: `none` when parsing throws
(malformed JSON). A non-array value throws `'Invalid data format'`.
An array is saved wholesale and its length returned; the model decodes
each element back into the typed store, and an array whose elements lie
outside the item schema of §3 is not representable (the code would save
it raw). The second component is the argument of the `saveAllItems`
call, `none` when nothing is written. -/
def importData (payload : Option Json) :
    Except String Nat × Option (List InventoryItem) :=
  match payload with
  | none => (.error "SyntaxError", none)
  | some (.arr elems) =>
    match elems.mapM itemOfJson with
    | some imported => (.ok imported.length, some imported)
    | none => (.error "unrepresentable elements", none)
  | some _ => (.error "Invalid data format", none)

/-- A well-formedness predicate: the numeric fields hold actual numbers
(no `NaN`), as the schema of §3 prescribes. -/
def schemaConforming (item : InventoryItem) : Prop :=
  item.costPrice ≠ none ∧ item.sellingPrice ≠ none ∧ item.quantity ≠ none

/-- The quantity invariant: whenever the quantity is an actual number
it is non-negative. -/
def qtyNonneg (item : InventoryItem) : Prop :=
  ∀ n, item.quantity = some n → 0 ≤ n

/-- The search matcher exactly as the specification sentence words it:
the item's description, stock number, supplier, or (non-null) barcode
contains THE QUERY ITSELF as a case-insensitive substring. Stated from
the spec, for comparison with `searchItems` (which matches the trimmed
query instead). -/
def specMatchesRawQuery (query : String) (item : InventoryItem) : Bool :=
  jsIncludes (jsLower item.description) (jsLower query) ||
  jsIncludes (jsLower item.stockNumber) (jsLower query) ||
  jsIncludes (jsLower item.supplier) (jsLower query) ||
  (match item.barcode with
   | some b => jsIncludes (jsLower b) (jsLower query)
   | none => false)

/-- The search matcher of the amended claim: the item's fields contain
the lower-cased, whitespace-trimmed query as a substring. -/
def specMatchesTrimmedQuery (query : String) (item : InventoryItem) : Bool :=
  jsIncludes (jsLower item.description) (jsTrim (jsLower query)) ||
  jsIncludes (jsLower item.stockNumber) (jsTrim (jsLower query)) ||
  jsIncludes (jsLower item.supplier) (jsTrim (jsLower query)) ||
  (match item.barcode with
   | some b => jsIncludes (jsLower b) (jsTrim (jsLower query))
   | none => false)

/-- A concrete sample item used to instantiate witnesses. -/
def wItem : InventoryItem :=
  { id := "i1", barcode := some "123", stockNumber := "SN1", supplier := "Acme",
    description := "Widget", costPrice := some 2, sellingPrice := some 5,
    quantity := some 10, createdAt := "2024-01-01T00:00:00.000Z",
    updatedAt := "2024-01-01T00:00:00.000Z" }

/-- A second sample item whose description contains the digits `123`
but whose barcode is null. -/
def wItem2 : InventoryItem :=
  { id := "i2", barcode := none, stockNumber := "SN2", supplier := "Bolt Co",
    description := "Bolt 123 housing", costPrice := some 1, sellingPrice := some 3,
    quantity := some 4, createdAt := "2024-01-01T00:00:00.000Z",
    updatedAt := "2024-01-01T00:00:00.000Z" }


theorem findIndex_eq_none_iff (p : α → Bool) (l : List α) :
    findIndex p l = none ↔ jsFind p l = none := by
  induction l with
  | nil => simp [findIndex, jsFind]
  | cons a as ih =>
    by_cases h : p a <;> simp [findIndex, jsFind, h, ih]

theorem jsFind_eq_none_iff (p : α → Bool) (l : List α) :
    jsFind p l = none ↔ ∀ a ∈ l, p a = false := by
  induction l with
  | nil => simp [jsFind]
  | cons a as ih =>
    by_cases h : p a <;> simp [jsFind, h, ih]

theorem jsFind_eq_some_mem (p : α → Bool) (l : List α) (a : α)
    (h : jsFind p l = some a) : a ∈ l ∧ p a = true := by
  induction l with
  | nil => simp [jsFind] at h
  | cons b bs ih =>
    by_cases hp : p b
    · simp [jsFind, hp] at h
      subst h; exact ⟨List.mem_cons_self _ _, hp⟩
    · simp [jsFind, hp] at h
      obtain ⟨h1, h2⟩ := ih h
      exact ⟨List.mem_cons_of_mem _ h1, h2⟩

theorem findIndex_getElem (p : α → Bool) (l : List α) (i : Nat)
    (h : findIndex p l = some i) : l[i]? = jsFind p l := by
  induction l generalizing i with
  | nil => simp [findIndex] at h
  | cons a as ih =>
    by_cases hp : p a
    · simp [findIndex, hp] at h
      subst h; simp [jsFind, hp]
    · simp [findIndex, hp] at h
      obtain ⟨j, hj, rfl⟩ := h
      simpa [jsFind, hp] using ih j hj

theorem findIndex_of_jsFind_some (p : α → Bool) (l : List α) (a : α)
    (h : jsFind p l = some a) :
    ∃ i, findIndex p l = some i ∧ l[i]? = some a := by
  rcases hidx : findIndex p l with _ | i
  · rw [findIndex_eq_none_iff] at hidx
    rw [hidx] at h; cases h
  · exact ⟨i, rfl, (findIndex_getElem p l i hidx).trans h⟩

/-- Workhorse for the `removeStock` claims: when the id is found, the
function reduces to the validation chain on the found item, with the
successful branch writing `items.set i upd`. -/
theorem removeStock_found (id qs now : String) (items : List InventoryItem)
    (item : InventoryItem) (hfind : getItemById id items = some item) :
    ∃ i, findIndex (fun it => it.id == id) items = some i ∧
      removeStock id qs now items =
        (if jsParseIntOr0 qs ≤ 0 then (.invalidQuantity, none)
         else if jltInt item.quantity (jsParseIntOr0 qs) then
           (.insufficientStock item.quantity, none)
         else
           (.success (jsParseIntOr0 qs)
              { item with quantity := jsubInt item.quantity (jsParseIntOr0 qs),
                          updatedAt := now },
            some (items.set i
              { item with quantity := jsubInt item.quantity (jsParseIntOr0 qs),
                          updatedAt := now }))) := by
  obtain ⟨i, hi, hget⟩ := findIndex_of_jsFind_some _ _ _ hfind
  refine ⟨i, hi, ?_⟩
  simp only [removeStock, hi, hget]

theorem removeStock_not_found (id qs now : String) (items : List InventoryItem)
    (h : getItemById id items = none) :
    removeStock id qs now items = (.notFound, none) := by
  have hidx : findIndex (fun it => it.id == id) items = none :=
    (findIndex_eq_none_iff _ _).mpr h
  simp only [removeStock, hidx]

/-- Workhorse for `updateItem`: when the id is found the overlay record
is stored at the found index and returned. -/
theorem updateItem_found (p : UpdatePayload) (now : String)
    (items : List InventoryItem) (item : InventoryItem)
    (hfind : getItemById p.id items = some item) :
    ∃ i, findIndex (fun it => it.id == p.id) items = some i ∧
      updateItem p now items =
        (some (applyUpdate p now item), some (items.set i (applyUpdate p now item))) := by
  obtain ⟨i, hi, hget⟩ := findIndex_of_jsFind_some _ _ _ hfind
  refine ⟨i, hi, ?_⟩
  simp only [updateItem, hi, hget]

/-- C1: `removeStock(id, q)` applies its checks in exactly this order:
unknown id → `NotFound`; otherwise parsed `q <= 0` → `InvalidQuantity`;
otherwise parsed `q` greater than the item's current quantity →
`InsufficientStock` carrying the available quantity; otherwise the
quantity is decremented by the parsed `q`, `updatedAt` is refreshed,
the updated collection is persisted, and the result is `Success` with
the removed amount and the updated item. -/
theorem removeStock_checks_in_order (id q now : String) (items : List InventoryItem) :
    (getItemById id items = none →
      removeStock id q now items = (.notFound, none)) ∧
    (∀ item, getItemById id items = some item →
      (jsParseIntOr0 q ≤ 0 →
        removeStock id q now items = (.invalidQuantity, none)) ∧
      (∀ n, item.quantity = some n → 0 < jsParseIntOr0 q → n < jsParseIntOr0 q →
        removeStock id q now items = (.insufficientStock (some n), none)) ∧
      (∀ n, item.quantity = some n → 0 < jsParseIntOr0 q → jsParseIntOr0 q ≤ n →
        ∃ i, findIndex (fun it => it.id == id) items = some i ∧
          removeStock id q now items =
            (.success (jsParseIntOr0 q)
               { item with quantity := some (n - jsParseIntOr0 q), updatedAt := now },
             some (items.set i
               { item with quantity := some (n - jsParseIntOr0 q), updatedAt := now })))) := by
  constructor
  · exact removeStock_not_found id q now items
  · intro item hfind
    obtain ⟨i, hi, hrun⟩ := removeStock_found id q now items item hfind
    refine ⟨?_, ?_, ?_⟩
    · intro hq
      rw [hrun, if_pos hq]
    · intro n hn hpos hlt
      have hjlt : jltInt item.quantity (jsParseIntOr0 q) = true := by
        simp only [jltInt, hn, decide_eq_true_eq]
        exact hlt
      rw [hrun, if_neg (by omega), if_pos hjlt, hn]
    · intro n hn hpos hle
      have hjlt : jltInt item.quantity (jsParseIntOr0 q) = false := by
        simp only [jltInt, hn, decide_eq_false_iff_not]
        omega
      refine ⟨i, hi, ?_⟩
      rw [hrun, if_neg (by omega), if_neg (by simp [hjlt])]
      simp [jsubInt, hn]

/-- Witness for C1: removing 3 units from the sample item with stock
10 takes the `Success` branch. -/
theorem removeStock_checks_in_order_witness :
    ∃ i, findIndex (fun it => it.id == "i1") [wItem] = some i ∧
      removeStock "i1" "3" "2024-01-02T00:00:00.000Z" [wItem] =
        (.success (jsParseIntOr0 "3")
           { wItem with quantity := some (10 - jsParseIntOr0 "3"),
                        updatedAt := "2024-01-02T00:00:00.000Z" },
         some ([wItem].set i
           { wItem with quantity := some (10 - jsParseIntOr0 "3"),
                        updatedAt := "2024-01-02T00:00:00.000Z" })) :=
  ((removeStock_checks_in_order "i1" "3" "2024-01-02T00:00:00.000Z" [wItem]).2
    wItem (by decide)).2.2 10 (by decide) (by decide) (by decide)

/-- C4: with the requested quantity parsing to `q` and `0 < q <= n` (the
item's current quantity), `removeStock` succeeds with `removed = q`, the
new quantity is exactly `n - q`, and `updatedAt` strictly advances
(under the real-time assumption that the fresh timestamp `now` is
strictly later than the stored one). -/
theorem removeStock_success_exact_decrement (id qs now : String)
    (items : List InventoryItem) (item : InventoryItem) (n q : Int)
    (hfind : getItemById id items = some item)
    (hqty : item.quantity = some n)
    (hparse : jsParseIntOr0 qs = q)
    (hpos : 0 < q) (hle : q ≤ n)
    (hclock : strLt item.updatedAt now = true) :
    ∃ i upd, findIndex (fun it => it.id == id) items = some i ∧
      removeStock id qs now items = (.success q upd, some (items.set i upd)) ∧
      upd.quantity = some (n - q) ∧
      strLt item.updatedAt upd.updatedAt = true := by
  obtain ⟨i, hi, hrun⟩ := removeStock_found id qs now items item hfind
  subst hparse
  have hjlt : jltInt item.quantity (jsParseIntOr0 qs) = false := by
    simp only [jltInt, hqty, decide_eq_false_iff_not]
    omega
  refine ⟨i,
    { item with quantity := jsubInt item.quantity (jsParseIntOr0 qs), updatedAt := now },
    hi, ?_, ?_, ?_⟩
  · rw [hrun, if_neg (by omega), if_neg (by simp [hjlt])]
  · simp [jsubInt, hqty]
  · exact hclock

/-- Witness for C4: removing 3 from stock 10 leaves 7 and advances the
timestamp. -/
theorem removeStock_success_exact_decrement_witness :
    ∃ i upd, findIndex (fun it => it.id == "i1") [wItem] = some i ∧
      removeStock "i1" "3" "2024-01-02T00:00:00.000Z" [wItem] =
        (.success 3 upd, some ([wItem].set i upd)) ∧
      upd.quantity = some (10 - 3) ∧
      strLt wItem.updatedAt upd.updatedAt = true :=
  removeStock_success_exact_decrement "i1" "3" "2024-01-02T00:00:00.000Z" [wItem]
    wItem 10 3 (by decide) (by decide) (by decide) (by decide) (by decide) (by decide)

/-- C5: whenever the outcome of `removeStock` is `NotFound`,
`InvalidQuantity` or `InsufficientStock`, `saveAllItems` is never
invoked — the persisted collection is left completely unchanged. -/
theorem removeStock_failure_writes_nothing (id qs now : String)
    (items : List InventoryItem) (res : RemoveResult)
    (save : Option (List InventoryItem))
    (hrun : removeStock id qs now items = (res, save))
    (hfail : res = .notFound ∨ res = .invalidQuantity ∨
      ∃ a, res = .insufficientStock a) :
    save = none := by
  rcases hfind : getItemById id items with _ | item
  · have h := (removeStock_not_found id qs now items hfind).symm.trans hrun
    injection h with h1 h2
    exact h2.symm
  · obtain ⟨i, hi, hrun'⟩ := removeStock_found id qs now items item hfind
    rw [hrun'] at hrun
    split at hrun
    · injection hrun with h1 h2
      exact h2.symm
    · split at hrun
      · injection hrun with h1 h2
        exact h2.symm
      · injection hrun with h1 h2
        subst h1
        rcases hfail with h | h | ⟨a, h⟩ <;> exact RemoveResult.noConfusion h

/-- Witness for C5: a call on an id absent from the store reports
`NotFound` and writes nothing. -/
theorem removeStock_failure_writes_nothing_witness :
    (removeStock "missing" "1" "T" [wItem]).2 = none :=
  removeStock_failure_writes_nothing "missing" "1" "T" [wItem]
    (removeStock "missing" "1" "T" [wItem]).1
    (removeStock "missing" "1" "T" [wItem]).2
    rfl (Or.inl (by decide))

/-- C2 counterexample: `updateItem` performs no quantity validation; an
update payload carrying quantity `"-3"` makes the persisted collection
hold quantity `-3`, which is negative. -/
theorem updateItem_stores_negative_quantity :
    (updateItem ⟨"i1", none, none, none, none, none, none, some "-3"⟩
        "2024-01-02T00:00:00.000Z" [wItem]).2 =
      some [{ wItem with quantity := some (-3),
                         updatedAt := "2024-01-02T00:00:00.000Z" }] ∧
    ¬ (0 : Int) ≤ -3 := by
  exact ⟨by decide, by decide⟩

/-- C2 amended: among the operations, `removeStock` and `delete`
preserve `quantity >= 0` for the persisted collection — a decrement
that would make a quantity negative is rejected, not clamped — while
`add`, `update` and `import` validate nothing and can store a negative
quantity supplied in their payload. -/
theorem removeStock_delete_preserve_nonneg (id qs now : String)
    (items : List InventoryItem)
    (hinv : ∀ it ∈ items, qtyNonneg it) :
    (∀ res l, removeStock id qs now items = (res, some l) →
      ∀ it ∈ l, qtyNonneg it) ∧
    (∀ b l, deleteItem id items = (b, some l) →
      ∀ it ∈ l, qtyNonneg it) := by
  constructor
  · intro res l hrun it hit
    rcases hfind : getItemById id items with _ | item
    · rw [removeStock_not_found id qs now items hfind] at hrun
      injection hrun with h1 h2
      exact Option.noConfusion h2
    · obtain ⟨i, hi, hrun'⟩ := removeStock_found id qs now items item hfind
      rw [hrun'] at hrun
      split at hrun
      · injection hrun with h1 h2
        exact Option.noConfusion h2
      · split at hrun
        · injection hrun with h1 h2
          exact Option.noConfusion h2
        · rename_i hq0 hjlt
          injection hrun with h1 h2
          injection h2 with h2
          subst h2
          rcases List.mem_or_eq_of_mem_set hit with hmem | heq
          · exact hinv it hmem
          · subst heq
            intro n hn
            rcases hqty : item.quantity with _ | m
            · simp [jsubInt, hqty] at hn
            · simp [jsubInt, hqty] at hn
              simp [jltInt, hqty] at hjlt
              omega
  · intro b l hrun it hit
    simp only [deleteItem] at hrun
    split at hrun
    · injection hrun with h1 h2
      exact Option.noConfusion h2
    · injection hrun with h1 h2
      injection h2 with h2
      subst h2
      exact hinv it (List.mem_filter.mp hit).1

/-- Witness for the amended C2: a successful decrement on the sample
store keeps every persisted quantity non-negative. -/
theorem removeStock_delete_preserve_nonneg_witness :
    qtyNonneg { wItem with quantity := some 7,
                           updatedAt := "2024-01-02T00:00:00.000Z" } := by
  have hinv : ∀ it ∈ [wItem], qtyNonneg it := by
    intro it hit n hn
    rw [List.mem_singleton] at hit
    subst hit
    rw [show wItem.quantity = some 10 from rfl] at hn
    injection hn with h
    omega
  have hrun : removeStock "i1" "3" "2024-01-02T00:00:00.000Z" [wItem] =
      (.success 3 { wItem with quantity := some 7,
                               updatedAt := "2024-01-02T00:00:00.000Z" },
       some [{ wItem with quantity := some 7,
                          updatedAt := "2024-01-02T00:00:00.000Z" }]) := by decide
  exact (removeStock_delete_preserve_nonneg "i1" "3" "2024-01-02T00:00:00.000Z"
    [wItem] hinv).1 _ _ hrun _ (List.mem_singleton.mpr rfl)

/-- C3: lookup routing tries the exact barcode match first — when some
item's barcode equals the code, the outcome is `ExactMatch` with that
item, regardless of what substring search would return — and only with
no exact match does it dispatch on the search results: zero hits →
`NoMatch`, exactly one → `SingleMatch`, more → `MultipleMatches`. -/
theorem resolveCode_exact_before_search (code : String) (items : List InventoryItem) :
    (∀ item, getItemByBarcode code items = some item →
      resolveCode code items = .exactMatch item) ∧
    (getItemByBarcode code items = none →
      (searchItems code items = [] → resolveCode code items = .noMatch) ∧
      (∀ item, searchItems code items = [item] →
        resolveCode code items = .singleMatch item) ∧
      (1 < (searchItems code items).length →
        resolveCode code items = .multipleMatches (searchItems code items))) := by
  constructor
  · intro item h
    simp only [resolveCode, h]
  · intro h
    refine ⟨?_, ?_, ?_⟩
    · intro hs
      simp only [resolveCode, h, hs]
    · intro item hs
      simp only [resolveCode, h, hs]
    · intro hlen
      rcases hs : searchItems code items with _ | ⟨a, _ | ⟨b, t⟩⟩
      · rw [hs] at hlen; simp at hlen
      · rw [hs] at hlen; simp at hlen
      · simp only [resolveCode, h, hs]

/-- Witness for C3: `"123"` is the sample item's exact barcode and at
the same time a substring of the other item's description (as the
spec-worded matcher certifies); resolution still yields `ExactMatch`. -/
theorem resolveCode_exact_before_search_witness :
    resolveCode "123" [wItem2, wItem] = .exactMatch wItem ∧
    specMatchesRawQuery "123" wItem2 = true :=
  ⟨(resolveCode_exact_before_search "123" [wItem2, wItem]).1 wItem (by decide),
   by decide⟩

/-- C6 counterexample: for the padded query `" w "` (whose trim is
nonempty) on a store holding the sample item, `searchItems` matches the
TRIMMED term `"w"` and returns the item, although no field of the item
contains `" w "` itself — the claim's untrimmed characterization
returns nothing. -/
theorem searchItems_matches_trimmed_not_raw :
    jsTrim " w " ≠ "" ∧
    searchItems " w " [wItem] = [wItem] ∧
    List.filter (specMatchesRawQuery " w ") [wItem] = [] :=
  ⟨by decide, by decide, by decide⟩

/-- C6 amended: an empty or whitespace-only query returns the empty
list regardless of the collection's contents; otherwise `searchItems`
returns exactly those items whose description, stock number, supplier,
or non-null barcode contains the whitespace-trimmed query as a
case-insensitive substring. -/
theorem searchItems_characterization (query : String) (items : List InventoryItem) :
    (jsTrim query = "" → searchItems query items = []) ∧
    (jsTrim query ≠ "" →
      searchItems query items = items.filter (specMatchesTrimmedQuery query)) := by
  constructor
  · intro h
    simp [searchItems, h]
  · intro h
    have hq : (query == "") = false := by
      apply beq_eq_false_iff_ne.mpr
      intro hq
      subst hq
      exact h rfl
    have ht : (jsTrim query == "") = false := beq_eq_false_iff_ne.mpr h
    simp only [searchItems, hq, ht, Bool.or_self, Bool.false_eq_true, if_false]
    rfl

/-- Witness for the amended C6: the padded query on the two sample
items agrees with the trimmed-query characterization. -/
theorem searchItems_characterization_witness :
    searchItems " w " [wItem, wItem2] =
      List.filter (specMatchesTrimmedQuery " w ") [wItem, wItem2] :=
  (searchItems_characterization " w " [wItem, wItem2]).2 (by decide)

/-- C7: the partial-update overlay — absent or empty payload strings
keep the prior `barcode`/`stockNumber`/`supplier`/`description`, while
`costPrice`/`sellingPrice`/`quantity` overlay with the parse of the
supplied string whenever the field is explicitly present (so an
explicit `"0"` stores `0`) and keep the prior value when absent; the
overlaid record is persisted at the found index and returned. -/
theorem updateItem_overlay_rule (p : UpdatePayload) (now : String)
    (items : List InventoryItem) (item : InventoryItem)
    (hfind : getItemById p.id items = some item) :
    ∃ i, findIndex (fun it => it.id == p.id) items = some i ∧
      updateItem p now items =
        (some (applyUpdate p now item), some (items.set i (applyUpdate p now item))) ∧
      ((p.stockNumber = none ∨ p.stockNumber = some "") →
        (applyUpdate p now item).stockNumber = item.stockNumber) ∧
      ((p.supplier = none ∨ p.supplier = some "") →
        (applyUpdate p now item).supplier = item.supplier) ∧
      ((p.description = none ∨ p.description = some "") →
        (applyUpdate p now item).description = item.description) ∧
      ((p.barcode = none ∨ p.barcode = some "") →
        (applyUpdate p now item).barcode = item.barcode) ∧
      (p.costPrice = none → (applyUpdate p now item).costPrice = item.costPrice) ∧
      (∀ s, p.costPrice = some s →
        (applyUpdate p now item).costPrice = jsParseFloat s) ∧
      (p.sellingPrice = none → (applyUpdate p now item).sellingPrice = item.sellingPrice) ∧
      (∀ s, p.sellingPrice = some s →
        (applyUpdate p now item).sellingPrice = jsParseFloat s) ∧
      (p.quantity = none → (applyUpdate p now item).quantity = item.quantity) ∧
      (∀ s, p.quantity = some s →
        (applyUpdate p now item).quantity = jsParseInt s) ∧
      (p.costPrice = some "0" → (applyUpdate p now item).costPrice = some 0) ∧
      (p.sellingPrice = some "0" → (applyUpdate p now item).sellingPrice = some 0) ∧
      (p.quantity = some "0" → (applyUpdate p now item).quantity = some 0) := by
  obtain ⟨i, hi, hrun⟩ := updateItem_found p now items item hfind
  refine ⟨i, hi, hrun, ?_, ?_, ?_, ?_, ?_, ?_, ?_, ?_, ?_, ?_, ?_, ?_, ?_⟩
  · rintro (h | h) <;> simp [applyUpdate, overlayStr, h]
  · rintro (h | h) <;> simp [applyUpdate, overlayStr, h]
  · rintro (h | h) <;> simp [applyUpdate, overlayStr, h]
  · rintro (h | h) <;> simp [applyUpdate, overlayBarcode, h]
  · intro h; simp [applyUpdate, h]
  · intro s h; simp [applyUpdate, h]
  · intro h; simp [applyUpdate, h]
  · intro s h; simp [applyUpdate, h]
  · intro h; simp [applyUpdate, h]
  · intro s h; simp [applyUpdate, h]
  · intro h; simp only [applyUpdate, h]; decide
  · intro h; simp only [applyUpdate, h]; decide
  · intro h; simp only [applyUpdate, h]; decide

/-- Witness for C7 on the sample item: an explicitly empty stock number
keeps the old value while explicit `"0"` price and quantity store `0`. -/
theorem updateItem_overlay_rule_witness :
    (applyUpdate ⟨"i1", none, some "", none, none, some "0", none, some "0"⟩
        "2024-01-02T00:00:00.000Z" wItem).stockNumber = wItem.stockNumber ∧
    (applyUpdate ⟨"i1", none, some "", none, none, some "0", none, some "0"⟩
        "2024-01-02T00:00:00.000Z" wItem).costPrice = some 0 ∧
    (applyUpdate ⟨"i1", none, some "", none, none, some "0", none, some "0"⟩
        "2024-01-02T00:00:00.000Z" wItem).quantity = some 0 := by
  obtain ⟨i, hi, hrun, hsn, hsup, hdesc, hbc, hcpN, hcpS, hspN, hspS, hqN, hqS,
    hcp0, hsp0, hq0⟩ :=
    updateItem_overlay_rule ⟨"i1", none, some "", none, none, some "0", none, some "0"⟩
      "2024-01-02T00:00:00.000Z" [wItem] wItem (by decide)
  exact ⟨hsn (Or.inr rfl), hcp0 rfl, hq0 rfl⟩

theorem itemOfJson_itemToJson (item : InventoryItem)
    (h : schemaConforming item) :
    itemOfJson (itemToJson item) = some item := by
  obtain ⟨id, bc, sn, sup, d, cp, sp, q, ca, ua⟩ := item
  obtain ⟨hcp, hsp, hq⟩ := h
  rcases cp with _ | cp
  · exact absurd rfl hcp
  rcases sp with _ | sp
  · exact absurd rfl hsp
  rcases q with _ | n
  · exact absurd rfl hq
  rcases bc with _ | b <;>
    simp [itemToJson, itemOfJson, strOfJson, barcodeOfJson, ratOfJson, intOfJson,
      Rat.den_intCast, Rat.num_intCast]

theorem mapM_itemOfJson_map (l : List InventoryItem)
    (h : ∀ it ∈ l, schemaConforming it) :
    (l.map itemToJson).mapM itemOfJson = some l := by
  induction l with
  | nil => rfl
  | cons a t ih =>
    simp only [List.map_cons, List.mapM_cons,
      itemOfJson_itemToJson a (h a (List.mem_cons_self a t)),
      ih (fun it hit => h it (List.mem_cons_of_mem a hit)),
      Option.pure_def, Option.bind_eq_bind, Option.some_bind]

/-- C8: exporting the full collection and importing the export
reproduces the collection field-for-field and reports its size, for
every collection whose numeric fields conform to the §3 schema (are
actual numbers, not `NaN`). -/
theorem export_import_round_trip (items : List InventoryItem)
    (h : ∀ it ∈ items, schemaConforming it) :
    importData (some (exportData items)) = (.ok items.length, some items) := by
  simp only [exportData, importData, mapM_itemOfJson_map items h]

/-- Witness for C8 on a two-item collection. -/
theorem export_import_round_trip_witness :
    importData (some (exportData [wItem, wItem2])) = (.ok 2, some [wItem, wItem2]) := by
  have hw : ∀ it ∈ [wItem, wItem2], schemaConforming it := by
    intro it hit
    rcases List.mem_cons.mp hit with rfl | hit2
    · exact ⟨by decide, by decide, by decide⟩
    · rcases List.mem_cons.mp hit2 with rfl | hit3
      · exact ⟨by decide, by decide, by decide⟩
      · exact absurd hit3 (List.not_mem_nil it)
  exact export_import_round_trip [wItem, wItem2] hw

/-- C9: a payload on which `JSON.parse` throws, or whose parse is not
an array, makes `importData` fail with a format error and write
nothing; a payload parsing to an array of schema records replaces the
collection with exactly those records and returns their number. -/
theorem importData_formats (payload : Option Json) :
    (payload = none → importData payload = (.error "SyntaxError", none)) ∧
    (∀ j, payload = some j → (∀ elems, j ≠ .arr elems) →
      importData payload = (.error "Invalid data format", none)) ∧
    (∀ elems imported, payload = some (.arr elems) →
      elems.mapM itemOfJson = some imported →
      importData payload = (.ok imported.length, some imported)) := by
  refine ⟨?_, ?_, ?_⟩
  · rintro rfl
    rfl
  · rintro j rfl hne
    rcases j with _ | b | q | s | elems | fields
    · rfl
    · rfl
    · rfl
    · rfl
    · exact absurd rfl (hne elems)
    · rfl
  · rintro elems imported rfl hdec
    simp only [importData, hdec]

/-- Witness for C9: a bare string payload is rejected with the format
error and nothing is written. -/
theorem importData_formats_witness :
    importData (some (.str "oops")) = (.error "Invalid data format", none) :=
  (importData_formats (some (.str "oops"))).2.1 (.str "oops") rfl
    (fun _ h => Json.noConfusion h)

theorem jsIsWs_eq_false_of_isDig (c : Char) (h : isDig c = true) :
    jsIsWs c = false := by
  simp only [isDig, Bool.and_eq_true, decide_eq_true_eq] at h
  simp only [jsIsWs, Bool.or_eq_false_iff, beq_eq_false_iff_ne, ne_eq]
  omega

theorem dropWs_cons_of_isDig (c : Char) (cs : List Char) (h : isDig c = true) :
    dropWs (c :: cs) = c :: cs := by
  simp [dropWs, jsIsWs_eq_false_of_isDig c h]

theorem beq_some_some [BEq α] (a b : α) : (some a == some b) = (a == b) := rfl

theorem neq_of_isDig (c : Char) (d : Char) (h : isDig c = true)
    (hd : isDig d = false) : (c == d) = false := by
  cases hb : c == d
  · rfl
  · rw [eq_of_beq hb] at h
    rw [h] at hd
    exact Bool.noConfusion hd

theorem takeWhile_isDig_append_dot (ds fs : List Char)
    (h : ∀ c ∈ ds, isDig c = true) :
    (ds ++ '.' :: fs).takeWhile isDig = ds := by
  induction ds with
  | nil =>
    simp [List.takeWhile_cons, show isDig '.' = false from by decide]
  | cons c t ih =>
    simp [List.takeWhile_cons, h c (List.mem_cons_self c t),
      ih (fun x hx => h x (List.mem_cons_of_mem c hx))]

theorem jsParseIntCore_decimal (ds fs : List Char)
    (hds : ∀ c ∈ ds, isDig c = true) (hne : ds ≠ []) :
    jsParseIntCore (ds ++ '.' :: fs) = some (digitsVal ds : Int) := by
  rcases ds with _ | ⟨d, t⟩
  · exact absurd rfl hne
  have hd : isDig d = true := hds d (List.mem_cons_self d t)
  have hminus : (d == '-') = false := neq_of_isDig d '-' hd (by decide)
  have hplus : (d == '+') = false := neq_of_isDig d '+' hd (by decide)
  have htake : List.takeWhile isDig ((d :: t) ++ '.' :: fs) = d :: t :=
    takeWhile_isDig_append_dot (d :: t) fs hds
  simp only [List.cons_append] at htake ⊢
  simp only [jsParseIntCore, dropWs_cons_of_isDig d (t ++ '.' :: fs) hd,
    List.head?_cons, beq_some_some, hminus, hplus, Bool.or_self,
    Bool.false_eq_true, if_false, htake, List.isEmpty_cons, one_mul]

/-- Used by the parse lemma wrapper: `jsParseInt` on an explicitly
constructed string is the core parser on its characters. -/
theorem jsParseInt_mk (l : List Char) : jsParseInt ⟨l⟩ = jsParseIntCore l := rfl

/-- C10: `removeStock` parses the requested quantity with `parseInt`,
which truncates a decimal numeral at the dot: a request string
`digits.digits` parses to the value of the integer digits, so such a
request removes exactly that many units when the truncation `t`
satisfies `0 < t <= n` (current quantity `n`), and yields
`InvalidQuantity` when the truncation is `0`. -/
theorem removeStock_truncates_request (id now : String)
    (items : List InventoryItem) (item : InventoryItem) (n : Int)
    (ds fs : List Char)
    (hds : ∀ c ∈ ds, isDig c = true) (hne : ds ≠ [])
    (hfind : getItemById id items = some item)
    (hqty : item.quantity = some n) :
    jsParseIntOr0 ⟨ds ++ '.' :: fs⟩ = (digitsVal ds : Int) ∧
    (0 < (digitsVal ds : Int) → (digitsVal ds : Int) ≤ n →
      ∃ i, findIndex (fun it => it.id == id) items = some i ∧
        removeStock id ⟨ds ++ '.' :: fs⟩ now items =
          (.success (digitsVal ds)
             { item with quantity := some (n - digitsVal ds), updatedAt := now },
           some (items.set i
             { item with quantity := some (n - digitsVal ds), updatedAt := now }))) ∧
    (digitsVal ds = 0 →
      removeStock id ⟨ds ++ '.' :: fs⟩ now items = (.invalidQuantity, none)) := by
  have hparse : jsParseIntOr0 ⟨ds ++ '.' :: fs⟩ = (digitsVal ds : Int) := by
    rw [jsParseIntOr0, jsParseInt_mk, jsParseIntCore_decimal ds fs hds hne]
    rfl
  refine ⟨hparse, ?_, ?_⟩
  · intro hpos hle
    obtain ⟨i, hi, hrun⟩ := removeStock_found id _ now items item hfind
    have hjlt : jltInt item.quantity (jsParseIntOr0 ⟨ds ++ '.' :: fs⟩) = false := by
      rw [hparse]
      simp only [jltInt, hqty, decide_eq_false_iff_not]
      omega
    refine ⟨i, hi, ?_⟩
    rw [hrun, if_neg (by rw [hparse]; omega), if_neg (by simp [hjlt]), hparse]
    simp [jsubInt, hqty]
  · intro h0
    obtain ⟨i, hi, hrun⟩ := removeStock_found id _ now items item hfind
    rw [hrun, if_pos (by rw [hparse]; omega)]

/-- Witness for C10: requesting `"3.9"` from the sample stock of 10
removes 3 units, leaving 7. -/
theorem removeStock_truncates_request_witness :
    jsParseIntOr0 ⟨['3', '.', '9']⟩ = 3 ∧
    ∃ i, findIndex (fun it => it.id == "i1") [wItem] = some i ∧
      removeStock "i1" ⟨['3', '.', '9']⟩ "2024-01-02T00:00:00.000Z" [wItem] =
        (.success 3
           { wItem with quantity := some (10 - 3),
                        updatedAt := "2024-01-02T00:00:00.000Z" },
         some ([wItem].set i
           { wItem with quantity := some (10 - 3),
                        updatedAt := "2024-01-02T00:00:00.000Z" })) := by
  obtain ⟨hp, hsucc, h0⟩ :=
    removeStock_truncates_request "i1" "2024-01-02T00:00:00.000Z" [wItem] wItem 10
      ['3'] ['9'] (by decide) (by decide) (by decide) (by decide)
  have e : ((digitsVal ['3'] : Nat) : Int) = 3 := by decide
  rw [e] at hp hsucc
  exact ⟨hp, hsucc (by omega) (by omega)⟩
